import Mathlib

/-!
# Verification of the mbl-tools release manager (`src/release_manager`)

This file gives a shallow embedding, in Lean 4, of the parts of
`release_manager.py`, `git_utils.py` and `repo_manifest.py` that the
specification's claims are about:

* the user-input revision dictionary and its resolution
  (`get_new_ref_from_new_revision_dict`),
* input-file parsing with the duplicate-key hook
  (`dict_raise_on_duplicates`, `json.loads(..., object_pairs_hook=...)`)
  and the structural validation in `parse_and_validate_input_file`,
* remote-state validation (`validate_remote_repositories_state` and its
  helper), with the remote modelled as an oracle from URL to the list of
  refs present there,
* the push operation `repo_push` with its "reference already exists"
  swallowing, the push-record bookkeeping and the rollback performed in
  `CReleaseManager.__exit__`,
* the per-project manifest rewrite step of `process_manifest_files`,
  including the duplicate-short-name check and the removal of the
  `revision` attribute,
* an event-trace model of the run driven by `main._main`, covering the
  clone / local-ref-creation / network-push effects of
  `process_manifest_files`, `validate_cross_dependencies`,
  `clone_and_create_new_revisions` and `mbl_manifest_repo_push`
  (the file-content rewriting of manifest XML files and of
  `mbl-linked-repositories.conf` is modelled separately / elided where a
  claim does not depend on the rewritten bytes).

Python dictionaries are modelled as association lists (insertion order,
unique keys where the code guarantees them); exceptions are modelled with
`Except String`; the git remote is an oracle `String → List String`
(URL ↦ refs present) and push outcomes an oracle returning success or a
captured `stderr` string.
-/

namespace MblReleaseManager

/-! ## Constants (release_manager.py / git_utils.py) -/

def COMMON_SD_KEY_NAME : String := "_common_"
def EXTERNAL_SD_KEY_NAME : String := "_external_"
def REF_BRANCH_PFX : String := "refs/heads/"
def REF_TAG_PFX : String := "refs/tags/"
def HASH_FIXED_LEN : Nat := 40
def ARM_MRR_REPO_NAME_PFX : String := "armmbed"
def MRR_MANIFEST_REMOTE_KEY : String := "github"
def ARM_MRR_REMOTE : String := "ssh://git@github.com"
def MBL_MANIFEST_REPO_NAME : String := "armmbed/mbl-manifest"
def MBL_LINKED_REPOSITORIES_REPO_NAME : String := "armmbed/meta-mbl"
def GIT_REMOTE_NAME : String := "origin"

/-- Models `git_utils.build_url_from_repo_name`. -/
def build_url_from_repo_name (remote_pfx repo_name : String) : String :=
  remote_pfx ++ ":/" ++ repo_name ++ ".git"

/-- Python `s.startswith(p)`, computed on the character lists (the
built-in `String.startsWith` does not reduce inside the kernel). -/
def strStartsWith (s p : String) : Bool :=
  p.toList.isPrefixOf s.toList

/-- Right-split a character list at the **last** occurrence of `c`:
Python `s.rsplit(c, 1)` when `c` occurs, `none` when it does not. -/
def rsplitChar (c : Char) : List Char → Option (List Char × List Char)
  | [] => none
  | x :: xs =>
      match rsplitChar c xs with
      | some (pre, post) => some (x :: pre, post)
      | none => if x = c then some ([], xs) else none

/-- Models `git_utils.get_base_rev_name`: Python `full_rev_name.rsplit("/", 1)[1]`.
For a string containing `/` this is the part after the last `/`; the
callers only pass fully-qualified refs (`refs/heads/...`, `refs/tags/...`),
for which the no-slash fallback (an `IndexError` in Python) is never
taken. -/
def get_base_rev_name (full_rev_name : String) : String :=
  match rsplitChar '/' full_rev_name.toList with
  | some (_, post) => String.mk post
  | none => full_rev_name

/-- Models `git_utils.is_valid_git_commit_hash`: length 40 and all hex digits
(Python `int(commit_hash, 16)` succeeds). -/
def is_valid_git_commit_hash (commit_hash : String) : Bool :=
  commit_hash.length = HASH_FIXED_LEN &&
    commit_hash.toList.all (fun c => c.isDigit || ("abcdefABCDEF".toList).contains c)

/-! ## The validated input document (C2, C3, C10)

`parse_and_validate_input_file` guarantees that in an accepted document
the `_external_` sub-dictionary maps repository names to two-element
lists with distinct entries, while every other sub-dictionary maps
repository names to single revision strings.  A document that passed that
validation is therefore modelled with the external scope split off, its
values being (starting revision, target revision) pairs. -/

structure ValidatedDoc where
  /-- the `_external_` sub-dictionary: repo name ↦ (start, target). -/
  external : List (String × String × String)
  /-- all other sub-dictionaries (including `_common_` when present):
  scope key ↦ (repo name ↦ target revision).  The key
  `EXTERNAL_SD_KEY_NAME` never occurs here. -/
  scopes : List (String × List (String × String))
deriving Repr, DecidableEq

/-- Models `CReleaseManager.get_new_ref_from_new_revision_dict`, on a validated
document.  Mirrors the source: first the exact scope (where the external
scope yields element `[1]` of the pair), then the `_common_` scope, then
`None`. -/
def get_new_ref_from_new_revision_dict (doc : ValidatedDoc)
    (sd_key_name repo_name : String) : Option String :=
  let exact : Option String :=
    if sd_key_name = EXTERNAL_SD_KEY_NAME then
      (doc.external.lookup repo_name).map (fun p => p.2)
    else
      (doc.scopes.lookup sd_key_name).bind (fun sd => sd.lookup repo_name)
  match exact with
  | some v => some v
  | none =>
      match (doc.scopes.lookup COMMON_SD_KEY_NAME).bind
          (fun sd => sd.lookup repo_name) with
      | some v => some v
      | none => none

/-- The resolution function as the specification words it: the value under
the exact scope when the repository is a key there (second pair element
for the external scope), otherwise the value under the common scope when
the repository is a key there, otherwise nil. -/
def resolve_spec (doc : ValidatedDoc) (sd_key_name repo_name : String) :
    Option String :=
  let exact : Option String :=
    if sd_key_name = EXTERNAL_SD_KEY_NAME then
      (doc.external.lookup repo_name).map (fun p => p.2)
    else
      (doc.scopes.lookup sd_key_name).bind (fun sd => sd.lookup repo_name)
  let common : Option String :=
    (doc.scopes.lookup COMMON_SD_KEY_NAME).bind (fun sd => sd.lookup repo_name)
  exact.orElse (fun _ => common)

/-! ## Rollback bookkeeping (C1)

`CReleaseManager.__exit__` receives the completion flag and the
append-only `already_pushed_repository_list` (pairs of repository and
pushed ref, appended by `repo_push` in the order the pushes succeeded).
If the flag is unset and the list is non-empty, it iterates the list
**in its stored order** (`for repo, ref in self.already_pushed_repository_list`)
and deletes each ref from its remote (`push(":" + ref.path)`). -/

structure ExitState where
  completed : Bool
  already_pushed_repository_list : List (String × String)
deriving Repr, DecidableEq

/-- The sequence of remote ref deletions performed by
`CReleaseManager.__exit__`, in the order they are issued. -/
def exit_rollback_deletions (st : ExitState) : List (String × String) :=
  if !st.completed && st.already_pushed_repository_list.length > 0 then
    st.already_pushed_repository_list
  else
    []

/-! ## Manifest model (repo_manifest.py) -/

/-- Models `CRepoManifestProject.__init__` data: one `<project>` element of a
manifest file, after parse.  `is_arm_mrr` is computed exactly as in the
constructor: prefix `armmbed` and remote key `github`. -/
structure CRepoManifestProject where
  full_name : String
  name_pfx : String
  short_name : String
  remote_key : String
  url : String
  revision : String
  is_arm_mrr : Bool
deriving Repr, DecidableEq

/-- Build a `CRepoManifestProject` the way `__init__` does, deriving
`is_arm_mrr` from the prefix/remote-key convention. -/
def mkManifestProject (full_name name_pfx short_name remote_key url revision : String) :
    CRepoManifestProject :=
  { full_name := full_name
    name_pfx := name_pfx
    short_name := short_name
    remote_key := remote_key
    url := url
    revision := revision
    is_arm_mrr := name_pfx = ARM_MRR_REPO_NAME_PFX && remote_key = MRR_MANIFEST_REMOTE_KEY }

/-- Models `CRepoManifestFile`: one parsed XML manifest (the live XML tree is
modelled separately, per project, for the rewrite claims). -/
structure CRepoManifestFile where
  filename : String
  default_rev : String
  remote_key_to_remote_dict : List (String × String)
  repo_name_to_proj_dict : List (String × CRepoManifestProject)
deriving Repr, DecidableEq

/-! ## Remote reference client (git_utils.py)

The remote is an oracle `String → List String` mapping a repository URL
to the list of fully-qualified refs present there (the keys of
`list_remote_references`). -/

/-- Models `git_utils.does_branch_exist_in_remote_repo`. -/
def does_branch_exist_in_remote_repo (remote : String → List String)
    (repo_url branch_name : String) (is_base_name : Bool) : Bool :=
  let refs := remote repo_url
  if is_base_name && refs.contains ("refs/heads/" ++ branch_name) then true
  else if refs.contains branch_name then true
  else false

/-- Models `git_utils.does_tag_exist_in_remote_repo`. -/
def does_tag_exist_in_remote_repo (remote : String → List String)
    (repo_url tag_name : String) (is_base_name : Bool) : Bool :=
  let refs := remote repo_url
  if is_base_name && refs.contains ("refs/tags/" ++ tag_name) then true
  else if refs.contains tag_name then true
  else false

/-! ## Remote-state validation (C3, C10) -/

/-- Models `CReleaseManager.validate_remote_repositories_state_helper`: for a
branch ref ask the remote for the branch, for a tag ref ask for the tag,
and for anything else (for example a commit hash) return `True`
unconditionally. -/
def validate_remote_repositories_state_helper (remote : String → List String)
    (url new_rev : String) : Bool :=
  if strStartsWith new_rev REF_BRANCH_PFX then
    does_branch_exist_in_remote_repo remote url new_rev false
  else if strStartsWith new_rev REF_TAG_PFX then
    does_tag_exist_in_remote_repo remote url new_rev false
  else
    true

/-- The `check_remote_list` built by
`CReleaseManager.validate_remote_repositories_state`: one entry
`(url, target, false)` per `_external_` repository, then one entry
`(url, new_ref, not is_arm_mrr)` per manifest project whose revision
resolution yields a pending new ref.  The third component is the result
the helper must return for the check to pass.  (`remote_key` is present
in `remote_key_to_remote_dict` for every parsed project — the manifest
parse dereferences it — hence the `getD` default is never taken for
parsed manifests.) -/
def build_check_remote_list (doc : ValidatedDoc)
    (manifests : List CRepoManifestFile) : List (String × String × Bool) :=
  (doc.external.map (fun kv =>
      (build_url_from_repo_name ARM_MRR_REMOTE kv.1, kv.2.2, false)))
  ++ manifests.flatMap (fun fo =>
      fo.repo_name_to_proj_dict.filterMap (fun kv =>
        match get_new_ref_from_new_revision_dict doc fo.filename kv.1 with
        | none => none
        | some new_ref =>
            some (build_url_from_repo_name
                    ((fo.remote_key_to_remote_dict.lookup kv.2.remote_key).getD "")
                    kv.2.full_name,
                  new_ref, !kv.2.is_arm_mrr)))

/-- Models `CReleaseManager.validate_remote_repositories_state`: run the helper
on every entry of the check list; any entry whose result differs from its
expected indication raises `argparse.ArgumentTypeError` (modelled as
`some errorMessage`; the source collects future results and raises on the
first mismatch it sees). -/
def validate_remote_repositories_state (remote : String → List String) :
    List (String × String × Bool) → Option String
  | [] => none
  | (url, rev, expected) :: rest =>
      if validate_remote_repositories_state_helper remote url rev ≠ expected then
        some ("revision " ++ rev ++ (if expected then " does not" else "") ++
              " exist on remote url " ++ url)
      else
        validate_remote_repositories_state remote rest

/-! ## Cross-dependency validation (release_manager.py lines 508-568) -/

/-- Checking 1 and 2 of `CReleaseManager.validate_cross_dependencies`:
every non-common scope key names a parsed manifest, and every repository
name under a scope is a project of that manifest (file-specific scope) or
of some manifest (common scope).  The `_external_` scope is skipped by the
source loop; in `ValidatedDoc` it is already kept apart. -/
def validate_cross_dependencies_checks (doc : ValidatedDoc)
    (manifests : List CRepoManifestFile) : Option String :=
  doc.scopes.findSome? (fun fs =>
    let file_name := fs.1
    if file_name ≠ COMMON_SD_KEY_NAME &&
        (manifests.find? (fun fo => fo.filename = file_name)).isNone then
      some ("main entry key " ++ file_name ++
            " in user input file is not found")
    else
      fs.2.findSome? (fun kv =>
        let repo_name := kv.1
        let found :=
          if file_name ≠ COMMON_SD_KEY_NAME then
            match manifests.find? (fun fo => fo.filename = file_name) with
            | some fo => (fo.repo_name_to_proj_dict.lookup repo_name).isSome
            | none => false
          else
            manifests.any (fun fo =>
              (fo.repo_name_to_proj_dict.lookup repo_name).isSome)
        if found then none
        else some ("invalid input file : entry (" ++ file_name ++ ", " ++
                   repo_name ++ ") not found!")))

/-- Models `CReleaseManager.validate_cross_dependencies`: the pure cross checks,
then `validate_remote_repositories_state` on the built check list. -/
def validate_cross_dependencies (remote : String → List String)
    (doc : ValidatedDoc) (manifests : List CRepoManifestFile) : Option String :=
  match validate_cross_dependencies_checks doc manifests with
  | some e => some e
  | none => validate_remote_repositories_state remote (build_check_remote_list doc manifests)

/-! ## Pushing and the event-trace run model (C1, C3, C4, C7) -/

/-- Substring search on character lists: does `p` occur as a contiguous
run inside the list? -/
def containsSub (p : List Char) : List Char → Bool
  | [] => p.isPrefixOf ([] : List Char)
  | c :: t => p.isPrefixOf (c :: t) || containsSub p t

/-- Python `pat in s` (substring containment), used for the
`"reference already exists" in err.stderr` test of `repo_push`. -/
def strContains (s pat : String) : Bool :=
  containsSub pat.toList s.toList

/-- Outcome of one network push attempt, as observed by `repo_push`:
either git succeeds or raises `GitCommandError` carrying `stderr`. -/
inductive GitPushOutcome where
  | success
  | failure (stderr : String)
deriving Repr, DecidableEq

/-- Observable side effects of the run on the outside world (git state). -/
inductive RunEvent where
  /-- a repository was cloned, checking out the given revision. -/
  | cloneRepo (full_name rev : String)
  /-- a branch or tag was created in the local clone. -/
  | createLocalRef (full_name ref : String)
  /-- a network push was attempted (`git push origin <rev>`). -/
  | netPush (full_name ref : String)
  /-- a local commit was made in the clone. -/
  | commitRepo (full_name : String)
deriving Repr, DecidableEq

/-- Whether an event is a network push. -/
def RunEvent.isNetPush : RunEvent → Bool
  | .netPush _ _ => true
  | _ => false

/-- Entries of `summary_log_list`, abstracted to their identifying
fields (the source stores formatted strings built from the same data). -/
inductive SummaryEntry where
  | branch (new_rev_short full_name : String)
  | tag (new_rev_short full_name : String)
  | push (full_name ref : String)
deriving Repr, DecidableEq

/-- Whether a summary entry is a `SUMMARY_H_PUSH` entry. -/
def SummaryEntry.isPush : SummaryEntry → Bool
  | .push _ _ => true
  | _ => false

/-- The mutable run state threaded through the release manager: the
emitted events, the summary log and the rollback bookkeeping list. -/
structure RunState where
  events : List RunEvent
  summary : List SummaryEntry
  already_pushed_repository_list : List (String × String)
deriving Repr, DecidableEq

def RunState.init : RunState := ⟨[], [], []⟩

/-- Models `CReleaseManager.repo_push`: in simulation mode only log; otherwise
attempt the network push, record the (repo, ref) pair on success, swallow
exactly a failure whose stderr contains `"reference already exists"`, and
re-raise any other failure. -/
def repo_push (simulate : Bool) (outcome : String → String → GitPushOutcome)
    (full_name new_rev : String) (st : RunState) : RunState × Option String :=
  if simulate then (st, none)
  else
    let st1 : RunState :=
      { st with events := st.events ++ [RunEvent.netPush full_name new_rev] }
    match outcome full_name new_rev with
    | .success =>
        ({ st1 with already_pushed_repository_list :=
            st1.already_pushed_repository_list ++ [(full_name, new_rev)] }, none)
    | .failure stderr =>
        if strContains stderr "reference already exists" then (st1, none)
        else (st1, some stderr)

/-- Models `CReleaseManager.create_and_update_new_revisions_worker` (with
`diagnostic_mode` off, so `diag_repo_push` answers `True`): clone at the
current revision, create the new branch (for a `refs/heads/` target) or
tag (otherwise) locally with its summary entry, and, unless the
repository is the hub manifest repository or the linked-repositories
repository, push it via `repo_push` and append the push summary entry. -/
def create_and_update_new_revisions_worker (simulate : Bool)
    (outcome : String → String → GitPushOutcome)
    (full_name cur_rev new_rev : String) (st : RunState) :
    RunState × Option String :=
  let st1 : RunState :=
    { st with events := st.events ++ [RunEvent.cloneRepo full_name cur_rev] }
  let new_rev_short := get_base_rev_name new_rev
  let st2 : RunState :=
    if strStartsWith new_rev REF_BRANCH_PFX then
      { st1 with
          events := st1.events ++ [RunEvent.createLocalRef full_name new_rev]
          summary := st1.summary ++ [SummaryEntry.branch new_rev_short full_name] }
    else
      { st1 with
          events := st1.events ++ [RunEvent.createLocalRef full_name new_rev]
          summary := st1.summary ++ [SummaryEntry.tag new_rev_short full_name] }
  if full_name ≠ MBL_MANIFEST_REPO_NAME ∧
      full_name ≠ MBL_LINKED_REPOSITORIES_REPO_NAME then
    match repo_push simulate outcome full_name new_rev st2 with
    | (st3, none) =>
        ({ st3 with summary := st3.summary ++ [SummaryEntry.push full_name new_rev] },
         none)
    | (st3, some e) => (st3, some e)
  else
    (st2, none)

/-! ## The run pipeline (`main._main`)

`_main` runs, in order: `parse_and_validate_input_file` (pure, no
network; modelled separately on raw JSON below — the pipeline starts from
the `ValidatedDoc` it produces), `process_manifest_files`,
`validate_cross_dependencies` (which ends in
`validate_remote_repositories_state`), `clone_and_create_new_revisions`,
`update_mbl_linked_repositories_conf` and `mbl_manifest_repo_push`; then
it prints the summary and sets `completed`.  The XML parsing/rewriting
inside `process_manifest_files` and the line edits of
`mbl-linked-repositories.conf` touch only the local clones' files; their
per-project rewrite logic is modelled separately
(`process_project_element`), and the pipeline records their git-visible
effects (clone / commit / push). -/

/-- The clone-and-branch part of `CReleaseManager.process_manifest_files`:
the hub manifest repository is cloned at `mbl_manifest_clone_ref`
(element 0 of its `_external_` pair, stored by the input parse) and the
new revision (element 1) is created on it by the worker; being the hub,
it is never pushed at this stage.  A document accepted by
`parse_and_validate_input_file` always contains the hub key, so the
`none` branch is unreachable on validated documents. -/
def process_manifest_files_run (simulate : Bool)
    (outcome : String → String → GitPushOutcome) (doc : ValidatedDoc)
    (st : RunState) : RunState × Option String :=
  match doc.external.lookup MBL_MANIFEST_REPO_NAME with
  | none =>
      (st, some (MBL_MANIFEST_REPO_NAME ++
        " key could not be found in user input file under " ++
        EXTERNAL_SD_KEY_NAME))
  | some (cur, tgt) =>
      create_and_update_new_revisions_worker simulate outcome
        MBL_MANIFEST_REPO_NAME cur tgt st

/-- The units of work of `CReleaseManager.clone_and_create_new_revisions`
(`clone_tup_list`): every `_external_` repository other than the hub,
with its (start, target) pair, then every Arm-MRR manifest project with a
pending resolved new revision, with its current manifest revision and the
new ref.  (The source runs these in a thread pool; the model runs them in
list order — no claim depends on the interleaving.) -/
def release_units (doc : ValidatedDoc) (manifests : List CRepoManifestFile) :
    List (String × String × String) :=
  (doc.external.filterMap (fun kv =>
      if kv.1 = MBL_MANIFEST_REPO_NAME then none
      else some (kv.1, kv.2.1, kv.2.2)))
  ++ manifests.flatMap (fun fo =>
      fo.repo_name_to_proj_dict.filterMap (fun kv =>
        match get_new_ref_from_new_revision_dict doc fo.filename kv.2.full_name with
        | some new_ref =>
            if kv.2.is_arm_mrr then
              some (kv.2.full_name, kv.2.revision, new_ref)
            else none
        | none => none))

/-- Run the worker over every unit of work, stopping at the first
failure (the source raises out of the thread-pool loop). -/
def run_workers (simulate : Bool)
    (outcome : String → String → GitPushOutcome) :
    List (String × String × String) → RunState → RunState × Option String
  | [], st => (st, none)
  | (full_name, cur_rev, new_rev) :: rest, st =>
      match create_and_update_new_revisions_worker simulate outcome
          full_name cur_rev new_rev st with
      | (st', none) => run_workers simulate outcome rest st'
      | (st', some e) => (st', some e)

/-- Models `CReleaseManager.mbl_manifest_repo_push` (with `diagnostic_mode`
off): stage and commit the rewritten manifest files in the hub clone,
then push its freshly created revision and append the push summary entry.
The pushed ref is the hub's `_external_` target (the branch checked out
by the worker). -/
def mbl_manifest_repo_push_run (simulate : Bool)
    (outcome : String → String → GitPushOutcome) (doc : ValidatedDoc)
    (st : RunState) : RunState × Option String :=
  match doc.external.lookup MBL_MANIFEST_REPO_NAME with
  | none => (st, some (MBL_MANIFEST_REPO_NAME ++ " not cloned"))
  | some (_, tgt) =>
      let st1 : RunState :=
        { st with events := st.events ++ [RunEvent.commitRepo MBL_MANIFEST_REPO_NAME] }
      match repo_push simulate outcome MBL_MANIFEST_REPO_NAME tgt st1 with
      | (st2, none) =>
          ({ st2 with summary :=
              st2.summary ++ [SummaryEntry.push MBL_MANIFEST_REPO_NAME tgt] }, none)
      | (st2, some e) => (st2, some e)

/-- The invocations of `update_mbl_linked_repositories_conf_helper` that
reach its push tail: one if the linked-repositories repository is an
`_external_` repository (pushing its new target), and one per manifest
listing it as an Arm-MRR project with a pending new revision (its
`cloned_repo` is set by `clone_and_create_new_revisions` exactly then).
Each yields a push of the repository's new revision. -/
def linked_conf_units (doc : ValidatedDoc)
    (manifests : List CRepoManifestFile) : List String :=
  (match doc.external.lookup MBL_LINKED_REPOSITORIES_REPO_NAME with
   | some p => [p.2]
   | none => [])
  ++ manifests.filterMap (fun fo =>
      match fo.repo_name_to_proj_dict.lookup MBL_LINKED_REPOSITORIES_REPO_NAME with
      | some proj =>
          match get_new_ref_from_new_revision_dict doc fo.filename proj.full_name with
          | some new_ref => if proj.is_arm_mrr then some new_ref else none
          | none => none
      | none => none)

/-- Models `CReleaseManager.update_mbl_linked_repositories_conf` (with
`diagnostic_mode` off): for each linked-conf unit, rewrite the
configuration file in the clone (a local file edit, plus a local commit
when the file changed — both invisible to the remote and elided here)
and then push the repository's revision via `repo_push`, appending the
push summary entry. -/
def update_mbl_linked_repositories_conf_run (simulate : Bool)
    (outcome : String → String → GitPushOutcome) :
    List String → RunState → RunState × Option String
  | [], st => (st, none)
  | ref :: rest, st =>
      match repo_push simulate outcome MBL_LINKED_REPOSITORIES_REPO_NAME ref st with
      | (st1, none) =>
          update_mbl_linked_repositories_conf_run simulate outcome rest
            { st1 with summary :=
                st1.summary ++ [SummaryEntry.push MBL_LINKED_REPOSITORIES_REPO_NAME ref] }
      | (st1, some e) => (st1, some e)

/-- The whole run of `main._main` after input parsing, on a validated
document: manifest clone + hub branch, cross-dependency and remote-state
validation, concurrent clone/branch/push of all units, linked-conf
update, hub commit+push.  Returns the final run state and `some error`
if the run raised. -/
def runRelease (simulate : Bool)
    (outcome : String → String → GitPushOutcome)
    (remote : String → List String) (doc : ValidatedDoc)
    (manifests : List CRepoManifestFile) : RunState × Option String :=
  match process_manifest_files_run simulate outcome doc RunState.init with
  | (st, some e) => (st, some e)
  | (st, none) =>
      match validate_cross_dependencies remote doc manifests with
      | some e => (st, some e)
      | none =>
          match run_workers simulate outcome (release_units doc manifests) st with
          | (st1, some e) => (st1, some e)
          | (st1, none) =>
              match update_mbl_linked_repositories_conf_run simulate outcome
                  (linked_conf_units doc manifests) st1 with
              | (st2, some e) => (st2, some e)
              | (st2, none) => mbl_manifest_repo_push_run simulate outcome doc st2

/-- A full invocation including the context-manager exit
(`with CReleaseManager() as rm`): `completed` is set only when every
phase of `_main` succeeded, and `__exit__` then replays the recorded
pushes if and only if the flag is unset. -/
def runRelease_exit_deletions (simulate : Bool)
    (outcome : String → String → GitPushOutcome)
    (remote : String → List String) (doc : ValidatedDoc)
    (manifests : List CRepoManifestFile) : List (String × String) :=
  let r := runRelease simulate outcome remote doc manifests
  exit_rollback_deletions ⟨r.2.isNone, r.1.already_pushed_repository_list⟩

/-! ## Raw JSON input and `parse_and_validate_input_file` (C5, C9)

An already-lexed JSON document (the shapes the input format uses:
strings, arrays, objects).  `json.loads` with
`object_pairs_hook=dict_raise_on_duplicates` hands every object's pair
list, innermost first, to the hook, which raises on a duplicate key. -/

inductive JsonV where
  | str (s : String)
  | arr (xs : List JsonV)
  | obj (fields : List (String × JsonV))
deriving Repr

/-- Models `CReleaseManager.dict_raise_on_duplicates`, the inner loop: build the
dictionary pair by pair, raising `ValueError` on a key that is already
present. -/
def dict_raise_on_duplicates_go {α : Type} :
    List (String × α) → List (String × α) → Except String (List (String × α))
  | [], d => .ok d
  | (k, v) :: rest, d =>
      if (d.lookup k).isSome then .error ("duplicate key: " ++ k)
      else dict_raise_on_duplicates_go rest (d ++ [(k, v)])

/-- Models `CReleaseManager.dict_raise_on_duplicates`. -/
def dict_raise_on_duplicates {α : Type} (ordered_pairs : List (String × α)) :
    Except String (List (String × α)) :=
  dict_raise_on_duplicates_go ordered_pairs []

/-- Models `json.loads(raw, object_pairs_hook=dict_raise_on_duplicates)`:
decode the document, applying the duplicate-raising hook to every object
(innermost objects first, fields in document order). -/
def loadsWithHook : JsonV → Except String JsonV
  | .str s => .ok (.str s)
  | .arr xs => (loadsList xs).map JsonV.arr
  | .obj fields => do
      let fs ← loadsFields fields
      let d ← dict_raise_on_duplicates fs
      .ok (.obj d)
where
  loadsList : List JsonV → Except String (List JsonV)
    | [] => .ok []
    | x :: xs => do
        let y ← loadsWithHook x
        let ys ← loadsList xs
        .ok (y :: ys)
  loadsFields : List (String × JsonV) → Except String (List (String × JsonV))
    | [] => .ok []
    | (k, v) :: rest => do
        let w ← loadsWithHook v
        let ws ← loadsFields rest
        .ok ((k, w) :: ws)

/-- Does some key occur twice in the pair list? -/
def hasDuplicateKey : List (String × JsonV) → Bool
  | [] => false
  | (k, _) :: rest => (rest.lookup k).isSome || hasDuplicateKey rest

/-- Does the document contain, at any nesting depth, an object with a
duplicate key? -/
def jsonHasDuplicateObj : JsonV → Bool
  | .str _ => false
  | .arr xs => dupList xs
  | .obj fields => hasDuplicateKey fields || dupFields fields
where
  dupList : List JsonV → Bool
    | [] => false
    | x :: xs => jsonHasDuplicateObj x || dupList xs
  dupFields : List (String × JsonV) → Bool
    | [] => false
    | (_, v) :: rest => jsonHasDuplicateObj v || dupFields rest

/-- Python `==` on the JSON values (deep equality). -/
def JsonV.beq : JsonV → JsonV → Bool
  | .str a, .str b => a == b
  | .arr xs, .arr ys => beqList xs ys
  | .obj fs, .obj gs => beqFields fs gs
  | _, _ => false
where
  beqList : List JsonV → List JsonV → Bool
    | [], [] => true
    | x :: xs, y :: ys => JsonV.beq x y && beqList xs ys
    | _, _ => false
  beqFields : List (String × JsonV) → List (String × JsonV) → Bool
    | [], [] => true
    | (k, v) :: fs, (l, w) :: gs => k == l && JsonV.beq v w && beqFields fs gs
    | _, _ => false

/-- Python `len` on a JSON value: characters of a string, elements of a
list, keys of a dictionary. -/
def pyLen : JsonV → Nat
  | .str s => s.length
  | .arr xs => xs.length
  | .obj fields => fields.length

/-- Python indexing `l[i]` on a JSON value: list element, or the
one-character string of a string (the shapes `in`-dexed by the source are
the `_external_` values, lists in accepted documents). -/
def pyIndex (j : JsonV) (i : Nat) : Option JsonV :=
  match j with
  | .arr xs => xs.get? i
  | .str s => (s.toList.get? i).map (fun c => JsonV.str (String.singleton c))
  | .obj _ => none

/-- Python `k in j`: key membership for a dictionary, element membership
for a list of strings, substring for a string. -/
def pyInKeys (j : JsonV) (k : String) : Bool :=
  match j with
  | .obj fields => (fields.lookup k).isSome
  | .arr xs => xs.any (fun x => JsonV.beq x (.str k))
  | .str s => strContains s k

/-- Python iteration over a JSON value as used for `validation_list += val`
and the later `key in validation_list` membership tests: keys of a
dictionary, the (string) elements of a list, the characters of a string.
(In accepted documents every scope value is a dictionary.) -/
def pyIterStrings (j : JsonV) : List String :=
  match j with
  | .obj fields => fields.map Prod.fst
  | .str s => s.toList.map (fun c => String.singleton c)
  | .arr xs => xs.filterMap (fun x => match x with | .str s => some s | _ => none)

/-- Models `.keys()` of a scope value (a dictionary in every accepted document;
Python raises on anything else, a shape no claim exercises). -/
def objKeys (j : JsonV) : List String :=
  match j with
  | .obj fields => fields.map Prod.fst
  | _ => []

/-- Models `.values()` of a scope value (a dictionary in accepted documents). -/
def objVals (j : JsonV) : List JsonV :=
  match j with
  | .obj fields => fields.map Prod.snd
  | _ => []

/-- The loop over `nrd[EXTERNAL_SD_KEY_NAME].values()` (lines 611-623):
every value must have Python length 2 and its two halves must differ. -/
def external_value_errors (ext : JsonV) : Option String :=
  (objVals ext).findSome? (fun l =>
    if pyLen l ≠ 2 then
      some ("Bad length for list - All lists under key " ++
            EXTERNAL_SD_KEY_NAME ++
            " in user input file must be of length 2!")
    else
      match pyIndex l 0, pyIndex l 1 with
      | some a, some b =>
          if JsonV.beq a b then
            some ("Bad list - non-distinct values under key " ++
                  EXTERNAL_SD_KEY_NAME ++ " in user input file!")
          else none
      | _, _ => none)

/-- Models `validation_list` (lines 636-639): the merged keys of every scope
that is neither `_common_` nor `_external_`. -/
def validationList (top : List (String × JsonV)) : List String :=
  (top.filterMap (fun kv =>
    if kv.1 ≠ COMMON_SD_KEY_NAME && kv.1 ≠ EXTERNAL_SD_KEY_NAME then
      some (pyIterStrings kv.2)
    else none)).flatten

/-- Lines 640-664: when `validation_list` is non-empty, no key of the
`_common_` scope, and then no key of the `_external_` scope, may occur in
it.  Returns the error raised, if any. -/
def cross_scope_key_error (top : List (String × JsonV)) (ext : JsonV) :
    Option String :=
  let validation_list := validationList top
  if validation_list ≠ [] then
    match (match top.lookup COMMON_SD_KEY_NAME with
           | some cv => (objKeys cv).find? (fun k => validation_list.contains k)
           | none => none) with
    | some k =>
        some ("Invalid input : key " ++ k ++ " found in " ++
              COMMON_SD_KEY_NAME ++ " but also in other file specific file SDs!")
    | none =>
        match (objKeys ext).find? (fun k => validation_list.contains k) with
        | some k =>
            some ("Invalid input : key " ++ k ++ " found in " ++
                  EXTERNAL_SD_KEY_NAME ++
                  ", but also in other file specific file SDs!")
        | none => none
  else none

/-- The structural validation of `parse_and_validate_input_file`
(release_manager.py lines 591-682), applied to the already-decoded
document: the `_external_` scope and the hub key must exist, every
`_external_` value must have length 2 with distinct halves, and no key of
the `_common_` or `_external_` scope may also be a key of a file-specific
scope (`validation_list`).  The pairwise check between two file-specific
scopes is commented out in the source (lines 666-680) and accordingly
absent here. -/
def parse_and_validate_structural (nrd : JsonV) : Except String JsonV :=
  match nrd with
  | .obj top =>
      match top.lookup EXTERNAL_SD_KEY_NAME with
      | none =>
          .error ("main entry key " ++ EXTERNAL_SD_KEY_NAME ++
                  " could not be found in user input file")
      | some ext =>
          if !pyInKeys ext MBL_MANIFEST_REPO_NAME then
            .error (MBL_MANIFEST_REPO_NAME ++
                    " key could not be found in user input file under " ++
                    EXTERNAL_SD_KEY_NAME)
          else
            match external_value_errors ext with
            | some e => .error e
            | none =>
                match cross_scope_key_error top ext with
                | some e => .error e
                | none => .ok nrd
  | _ => .error "user input file is not a JSON object"

/-- Models `CReleaseManager.parse_and_validate_input_file`: decode with the
duplicate-raising hook, then validate structurally. -/
def parse_and_validate_input_file (doc : JsonV) : Except String JsonV :=
  (loadsWithHook doc).bind parse_and_validate_structural

/-! ## The per-project loop of `process_manifest_files` (C6, C8)

release_manager.py lines 310-364.  A `<project>` XML element is its
attribute list (attribute names are unique in XML); `atype.set` replaces
or appends an attribute, `del atype.attrib[k]` removes it and raises
`KeyError` when it is absent. -/

/-- Models `ElementTree` attribute write `atype.set k v`. -/
def xmlSet : List (String × String) → String → String → List (String × String)
  | [], k, v => [(k, v)]
  | (k', v') :: rest, k, v =>
      if k' = k then (k, v) :: rest else (k', v') :: xmlSet rest k v

/-- Models `del atype.attrib[k]`: removes the attribute, raising `KeyError` when
it is not present. -/
def xmlDel (attribs : List (String × String)) (k : String) :
    Except String (List (String × String)) :=
  if (attribs.lookup k).isSome then
    .ok (attribs.filter (fun kv => kv.1 ≠ k))
  else
    .error ("KeyError: " ++ k)

/-- Python `full_name.rsplit("/", 1)` unpacked into two names: the text
before the last `/` and the text after it; unpacking raises when the
name contains no `/`. -/
def rsplit_full_name (full_name : String) : Option (String × String) :=
  (rsplitChar '/' full_name.toList).map (fun pq => (String.mk pq.1, String.mk pq.2))

/-- The state the project loop threads through one manifest file: the
`name_to_proj_dict` built so far (keyed, as in the source at line 345, by
the **full** project name) and the running `is_changed` flag. -/
structure ProjLoopState where
  name_to_proj_dict : List (String × CRepoManifestProject)
  is_changed : Bool
deriving Repr, DecidableEq

/-- One iteration of the `for atype in root.findall("project")` loop of
`process_manifest_files`: split the name, run the duplicate check
(`if short_name in name_to_proj_dict` — membership among the dictionary
keys, which are full names), build the project, resolve its pending new
revision and rewrite the `revision` (and possibly `upstream`) attributes
in place.  Returns the updated loop state and the element's rewritten
attribute list. -/
def process_project_element (doc : ValidatedDoc) (base_name default_rev : String)
    (remote_key_to_remote_dict : List (String × String))
    (st : ProjLoopState) (attribs : List (String × String)) :
    Except String (ProjLoopState × List (String × String)) := do
  let some full_name := attribs.lookup "name"
    | .error "AttributeError: project element has no name"
  let some (pfx, short_name) := rsplit_full_name full_name
    | .error "ValueError: not enough values to unpack"
  if (st.name_to_proj_dict.lookup short_name).isSome then
    .error ("File " ++ base_name ++ " : project " ++ short_name ++
            " repeats multiple times!")
  else
    let some remote_key := attribs.lookup "remote"
      | .error "KeyError: None"
    let some fetch := remote_key_to_remote_dict.lookup remote_key
      | .error ("KeyError: " ++ remote_key)
    let url := fetch ++ ":/" ++ full_name ++ ".git"
    let revision :=
      match attribs.lookup "revision" with
      | some r => if r = "" then default_rev else r
      | none => default_rev
    let proj := mkManifestProject full_name pfx short_name remote_key url revision
    let dict := st.name_to_proj_dict ++ [(full_name, proj)]
    let new_ref := get_new_ref_from_new_revision_dict doc base_name full_name
    let (attribs1, is_changed1) ←
      match new_ref with
      | some nr =>
          if nr = REF_BRANCH_PFX ++ default_rev then do
            let a ← xmlDel attribs "revision"
            pure (a, true)
          else if nr ≠ "" then
            pure (if is_valid_git_commit_hash nr then
                    xmlSet attribs "revision" nr
                  else
                    xmlSet attribs "revision" (get_base_rev_name nr),
                  true)
          else
            pure (attribs, st.is_changed)
      | none => pure (attribs, st.is_changed)
    let attribs2 :=
      if is_changed1 && (attribs1.lookup "upstream").isSome then
        attribs1.filter (fun kv => kv.1 ≠ "upstream")
      else attribs1
    pure (⟨dict, is_changed1⟩, attribs2)

/-- The whole project loop over one manifest file, in document order:
threads the loop state and collects the rewritten elements. -/
def process_manifest_projects (doc : ValidatedDoc)
    (base_name default_rev : String)
    (remote_key_to_remote_dict : List (String × String)) :
    List (List (String × String)) → ProjLoopState →
    Except String (ProjLoopState × List (List (String × String)))
  | [], st => .ok (st, [])
  | attribs :: rest, st => do
      let (st1, a1) ← process_project_element doc base_name default_rev
        remote_key_to_remote_dict st attribs
      let (st2, as2) ← process_manifest_projects doc base_name default_rev
        remote_key_to_remote_dict rest st1
      pure (st2, a1 :: as2)

/-- Re-parsing a written-out project element: `atype.get("revision")`,
falling back to the manifest default when the attribute is absent or
empty (lines 335-337). -/
def parsed_revision (attribs : List (String × String)) (default_rev : String) :
    String :=
  match attribs.lookup "revision" with
  | some r => if r = "" then default_rev else r
  | none => default_rev

/-- The error payload of an `Except`, if any. -/
def errOf {ε α : Type} : Except ε α → Option ε
  | .error e => some e
  | .ok _ => none

/-- An input document in which `armmbed/x` is a key under both
file-specific scopes `f1` and `f2`. -/
def c9_duplicate_doc_top : List (String × JsonV) :=
  [("_external_", .obj [("armmbed/mbl-manifest",
      .arr [.str "refs/heads/a", .str "refs/heads/b"])]),
   ("f1", .obj [("armmbed/x", .str "refs/heads/r1")]),
   ("f2", .obj [("armmbed/x", .str "refs/heads/r2")])]

/-- The remote-state check list as §4.4 of the specification words it:
one check per external-scope repository asserting its target ref absent
(expected result `false`), and one check per manifest project with a
pending revision change asserting absence when the project is
Arm-managed and presence when it is not. -/
def spec_check_list (doc : ValidatedDoc) (manifests : List CRepoManifestFile) :
    List (String × String × Bool) :=
  (doc.external.map (fun kv =>
      (build_url_from_repo_name ARM_MRR_REMOTE kv.1, kv.2.2, false)))
  ++ manifests.flatMap (fun fo =>
      fo.repo_name_to_proj_dict.filterMap (fun kv =>
        (get_new_ref_from_new_revision_dict doc fo.filename kv.1).map
          (fun new_ref =>
            (build_url_from_repo_name
                ((fo.remote_key_to_remote_dict.lookup kv.2.remote_key).getD "")
                kv.2.full_name,
             new_ref,
             if kv.2.is_arm_mrr then false else true))))

/-- The relation between the run state of a simulated run and the run
state of the corresponding real run: same events apart from the network
pushes, same summary log, and no push records in the simulation. -/
structure SimReal (s r : RunState) : Prop where
  events_eq : s.events = r.events.filter (fun e => !e.isNetPush)
  summary_eq : s.summary = r.summary
  records_nil : s.already_pushed_repository_list = []

/-- A validated document requesting one fresh branch `release-7` on the
hub manifest repository (used against a remote that already has it). -/
def c3_doc : ValidatedDoc :=
  ⟨[("armmbed/mbl-manifest", ("refs/heads/dev", "refs/heads/release-7"))], []⟩

/-! ## Helper lemmas -/

theorem lookup_append_left {α : Type} (l₁ l₂ : List (String × α)) (k : String)
    (h : (l₁.lookup k).isSome = true) : (l₁ ++ l₂).lookup k = l₁.lookup k := by
  induction l₁ with
  | nil => simp [List.lookup] at h
  | cons hd tl ih =>
      obtain ⟨a, b⟩ := hd
      cases hk : k == a with
      | true => simp [List.lookup, hk]
      | false =>
          simp only [List.lookup, hk] at h ⊢
          exact ih h

/-! ## C1: rollback of the pushed refs -/

/-- C1 (amended): when the run did not complete, the `__exit__` rollback
deletes exactly the refs recorded as pushed in this run — no more, no
fewer — replaying the push records **in the order of their recording**
(the source iterates `already_pushed_repository_list` front to back, not
in reverse); when the run completed, no recorded ref is deleted. -/
theorem C1_rollback_deletes_exactly_recorded (st : ExitState) :
    (st.completed = false →
      exit_rollback_deletions st = st.already_pushed_repository_list ∧
      ∀ p : String × String,
        p ∈ exit_rollback_deletions st ↔ p ∈ st.already_pushed_repository_list) ∧
    (st.completed = true → exit_rollback_deletions st = []) := by
  obtain ⟨c, l⟩ := st
  cases c
  · refine ⟨fun _ => ?_, fun h => by simp at h⟩
    cases l <;> simp [exit_rollback_deletions]
  · exact ⟨fun h => by simp at h, fun _ => by simp [exit_rollback_deletions]⟩

/-- Witness for C1: a concrete failed run with two recorded pushes whose
rollback deletes exactly those two refs. -/
theorem C1_rollback_deletes_exactly_recorded_witness :
    exit_rollback_deletions
        ⟨false, [("armmbed/meta-a", "refs/heads/rel"),
                 ("armmbed/meta-b", "refs/heads/rel")]⟩ =
      [("armmbed/meta-a", "refs/heads/rel"), ("armmbed/meta-b", "refs/heads/rel")] :=
  ((C1_rollback_deletes_exactly_recorded
      ⟨false, [("armmbed/meta-a", "refs/heads/rel"),
               ("armmbed/meta-b", "refs/heads/rel")]⟩).1 rfl).1

/-- Counterexample for C1 as stated: the claim says the push records are
replayed **in reverse order of their recording**, but on a failed run
with two records the deletions are issued in recording order, which
differs from the reverse replay. -/
theorem C1_rollback_not_reverse_counterexample :
    exit_rollback_deletions
        ⟨false, [("armmbed/meta-a", "refs/heads/rel1"),
                 ("armmbed/meta-b", "refs/heads/rel2")]⟩ ≠
      [("armmbed/meta-b", "refs/heads/rel2"), ("armmbed/meta-a", "refs/heads/rel1")] := by
  decide

/-! ## C2: two-tier revision resolution -/

/-- C2: for every validated input document, scope key and repository
name, `get_new_ref_from_new_revision_dict` returns the value under the
exact scope when the repository is a key there (for the external scope
the second element of the pair, never the first), otherwise the value
under the common scope when the repository is a key there, otherwise
nil — it equals the none-biased `orElse` of the two tiers and never
combines them. -/
theorem C2_revision_resolution_two_tier (doc : ValidatedDoc) (s r : String) :
    get_new_ref_from_new_revision_dict doc s r = resolve_spec doc s r := by
  unfold get_new_ref_from_new_revision_dict resolve_spec
  cases hx : (if s = EXTERNAL_SD_KEY_NAME then
      (doc.external.lookup r).map (fun p => p.2)
    else
      (doc.scopes.lookup s).bind (fun sd => sd.lookup r)) with
  | none =>
      cases hc : ((doc.scopes.lookup COMMON_SD_KEY_NAME).bind
          (fun sd => sd.lookup r)) with
      | none => simp [hx, hc, Option.orElse]
      | some v => simp [hx, hc, Option.orElse]
  | some v => simp [hx, Option.orElse]

/-! ## C4: the push swallows exactly the benign "ref exists" race -/

/-- C4: for every non-simulated push, `repo_push` completes without
error and without appending a push record exactly when the failure's
stderr contains `"reference already exists"`; every other failure is
propagated to the caller with its stderr; and the returned state carries
an appended push record if and only if the push itself succeeded. -/
theorem C4_repo_push_swallows_exactly_ref_exists
    (o : String → String → GitPushOutcome) (n v : String) (st : RunState) :
    (∀ stderr, o n v = .failure stderr →
      (strContains stderr "reference already exists" = true →
        repo_push false o n v st =
          ({ st with events := st.events ++ [RunEvent.netPush n v] }, none)) ∧
      (strContains stderr "reference already exists" = false →
        repo_push false o n v st =
          ({ st with events := st.events ++ [RunEvent.netPush n v] },
           some stderr))) ∧
    (o n v = .success →
      repo_push false o n v st =
        ({ st with
            events := st.events ++ [RunEvent.netPush n v]
            already_pushed_repository_list :=
              st.already_pushed_repository_list ++ [(n, v)] }, none)) ∧
    ((repo_push false o n v st).1.already_pushed_repository_list =
        st.already_pushed_repository_list ++ [(n, v)] ↔ o n v = .success) := by
  refine ⟨?_, ?_, ?_⟩
  · intro stderr hf
    constructor <;> intro hs <;> simp [repo_push, hf, hs]
  · intro hsucc
    simp [repo_push, hsucc]
  · cases ho : o n v with
    | success => simp [repo_push, ho]
    | failure stderr =>
        by_cases hs : strContains stderr "reference already exists" = true
        · simp [repo_push, ho, hs]
        · simp [repo_push, ho, hs]

/-- Witness for C4: a concrete push failing with the benign
"reference already exists" stderr completes without error and leaves the
push records unchanged. -/
theorem C4_repo_push_swallows_exactly_ref_exists_witness :
    repo_push false
        (fun _ _ => GitPushOutcome.failure "remote: error: reference already exists")
        "armmbed/meta-x" "refs/heads/rel" RunState.init =
      ({ RunState.init with
          events := RunState.init.events ++
            [RunEvent.netPush "armmbed/meta-x" "refs/heads/rel"] }, none) :=
  ((C4_repo_push_swallows_exactly_ref_exists
      (fun _ _ => GitPushOutcome.failure "remote: error: reference already exists")
      "armmbed/meta-x" "refs/heads/rel" RunState.init).1
    "remote: error: reference already exists" rfl).1 (by decide)

/-! ## C10: non-ref external targets always abort remote validation -/

/-- Any check-list entry whose helper result differs from its expected
indication makes `validate_remote_repositories_state` raise. -/
theorem validate_remote_error_of_mismatch (remote : String → List String) :
    ∀ (checks : List (String × String × Bool)) (c : String × String × Bool),
      c ∈ checks →
      validate_remote_repositories_state_helper remote c.1 c.2.1 ≠ c.2.2 →
      ∃ msg, validate_remote_repositories_state remote checks = some msg := by
  intro checks
  induction checks with
  | nil => intro c hc _; cases hc
  | cons hd tl ih =>
      intro c hc hne
      obtain ⟨url, rev, exp⟩ := hd
      by_cases hm : validate_remote_repositories_state_helper remote url rev = exp
      · rcases List.mem_cons.mp hc with rfl | hc2
        · exact absurd hm hne
        · obtain ⟨msg, hmsg⟩ := ih c hc2 hne
          exact ⟨msg, by simp [validate_remote_repositories_state, hm, hmsg]⟩
      · exact ⟨_, by simp only [validate_remote_repositories_state]
                     rw [if_pos hm]⟩

/-- C10: for every external-scope entry whose target revision starts
with neither `refs/heads/` nor `refs/tags/` (in particular a commit
hash), remote-state validation raises an error for **every** possible
remote state: the helper returns `True` unconditionally while the
external check expects `False`. -/
theorem C10_non_ref_external_target_always_fails
    (remote : String → List String) (doc : ValidatedDoc)
    (manifests : List CRepoManifestFile) (repo cur tgt : String)
    (hmem : (repo, cur, tgt) ∈ doc.external)
    (hb : strStartsWith tgt REF_BRANCH_PFX = false)
    (ht : strStartsWith tgt REF_TAG_PFX = false) :
    ∃ msg, validate_remote_repositories_state remote
        (build_check_remote_list doc manifests) = some msg := by
  apply validate_remote_error_of_mismatch remote _
    (build_url_from_repo_name ARM_MRR_REMOTE repo, tgt, false)
  · apply List.mem_append_left
    exact List.mem_map.mpr ⟨(repo, (cur, tgt)), hmem, rfl⟩
  · simp [validate_remote_repositories_state_helper, hb, ht]

/-- Witness for C10: an external entry targeting a 40-hex commit hash
fails remote validation even against an empty remote. -/
theorem C10_non_ref_external_target_always_fails_witness :
    ∃ msg, validate_remote_repositories_state (fun _ => [])
        (build_check_remote_list
          ⟨[("armmbed/mbl-manifest",
             ("refs/heads/dev", "0123456789abcdef0123456789abcdef01234567"))], []⟩
          []) = some msg :=
  C10_non_ref_external_target_always_fails (fun _ => [])
    ⟨[("armmbed/mbl-manifest",
       ("refs/heads/dev", "0123456789abcdef0123456789abcdef01234567"))], []⟩
    [] "armmbed/mbl-manifest" "refs/heads/dev"
    "0123456789abcdef0123456789abcdef01234567"
    (by decide) (by decide) (by decide)

/-! ## C8 and C6: the per-project manifest loop -/

/-- C8 (the code at the failing input): a manifest with two projects
named `armmbed/foo` and `other/foo` — the same short name `foo` under
different full names — is **not** rejected: both projects are inserted
and no structural error is raised, because the duplicate check
`short_name in name_to_proj_dict` compares the short name against the
dictionary keys, which are full names (line 345), and so never matches. -/
theorem C8_duplicate_short_name_not_rejected :
    ((rsplit_full_name "armmbed/foo").map Prod.snd = some "foo" ∧
     (rsplit_full_name "other/foo").map Prod.snd = some "foo") ∧
    (process_manifest_projects ⟨[], []⟩ "default" "master"
        [("github", "ssh://git@github.com")]
        [[("name", "armmbed/foo"), ("remote", "github")],
         [("name", "other/foo"), ("remote", "github")]]
        ⟨[], false⟩).toOption.map
      (fun r => r.1.name_to_proj_dict.map Prod.fst) =
      some ["armmbed/foo", "other/foo"] := by
  decide

/-- C6 (the code at the failing input): a project that carries no
explicit `revision` attribute (inheriting the manifest default `master`)
whose resolved new revision is `refs/heads/master` makes the rewrite
raise `KeyError` — `del atype.attrib["revision"]` is unconditional
(line 353) — instead of leaving the project at the implicit default;
the same project **with** an explicit `revision` attribute is rewritten
so that re-parsing yields the manifest default, as the claim states. -/
theorem C6_default_revision_removal_keyerror :
    errOf (process_project_element
        ⟨[], [("default", [("armmbed/x", "refs/heads/master")])]⟩
        "default" "master" [("github", "ssh://git@github.com")]
        ⟨[], false⟩
        [("name", "armmbed/x"), ("remote", "github")]) =
      some "KeyError: revision" ∧
    (process_project_element
        ⟨[], [("default", [("armmbed/x", "refs/heads/master")])]⟩
        "default" "master" [("github", "ssh://git@github.com")]
        ⟨[], false⟩
        [("name", "armmbed/x"), ("remote", "github"),
         ("revision", "refs/heads/old")]).toOption.map
      (fun r => (r.2.lookup "revision", parsed_revision r.2 "master")) =
      some (none, "master") := by
  decide

/-! ## C9: which cross-scope duplicates the structural validation rejects -/

/-- Counterexample for C9 as stated: an input in which the repository
`armmbed/x` appears as a key under the two file-specific scopes `f1` and
`f2` (it occurs twice in `validation_list`) is **accepted** by
`parse_and_validate_input_file` — the source only compares the common
and external scopes against the file-specific ones, and the pairwise
file-scope check is commented out. -/
theorem C9_file_scope_duplicate_accepted_counterexample :
    (validationList c9_duplicate_doc_top).count "armmbed/x" = 2 ∧
    (parse_and_validate_input_file (.obj c9_duplicate_doc_top)).isOk = true := by
  constructor
  · decide
  · rfl

/-- C9 (amended): structural validation fails whenever a repository name
that is a key of the `_common_` scope, or of the `_external_` scope,
also appears as a key under some file-specific scope; a repository name
appearing under two *file-specific* scopes alone is accepted (that check
is commented out in the source). -/
theorem C9_cross_scope_duplicate_rejected (top : List (String × JsonV))
    (k : String)
    (hdup : (∃ cv, top.lookup COMMON_SD_KEY_NAME = some cv ∧ k ∈ objKeys cv) ∨
            (∃ ev, top.lookup EXTERNAL_SD_KEY_NAME = some ev ∧ k ∈ objKeys ev))
    (hval : k ∈ validationList top) :
    ∃ msg, parse_and_validate_structural (.obj top) = .error msg := by
  have hvalc : (validationList top).contains k = true := by
    simpa [List.contains] using List.elem_iff.mpr hval
  have hvl : validationList top ≠ [] := by
    intro h
    rw [h] at hval
    cases hval
  cases hext : top.lookup EXTERNAL_SD_KEY_NAME with
  | none =>
      exact ⟨"main entry key " ++ EXTERNAL_SD_KEY_NAME ++
             " could not be found in user input file",
        by simp [parse_and_validate_structural, hext]⟩
  | some ext =>
      by_cases hhub : pyInKeys ext MBL_MANIFEST_REPO_NAME = true
      · cases hev : external_value_errors ext with
        | some e =>
            exact ⟨e, by simp [parse_and_validate_structural, hext, hhub, hev]⟩
        | none =>
            have hcross : ∃ m, cross_scope_key_error top ext = some m := by
              rcases hdup with ⟨cv, hcv, hkcv⟩ | ⟨ev, hev2, hkev⟩
              · have hfind : ((objKeys cv).find?
                    (fun x => (validationList top).contains x)).isSome := by
                  rw [List.find?_isSome]
                  exact ⟨k, hkcv, hvalc⟩
                rw [Option.isSome_iff_exists] at hfind
                obtain ⟨k2, hk2⟩ := hfind
                refine ⟨"Invalid input : key " ++ k2 ++ " found in " ++
                    COMMON_SD_KEY_NAME ++
                    " but also in other file specific file SDs!", ?_⟩
                simp only [cross_scope_key_error]
                rw [if_pos hvl]
                simp only [hcv, hk2]
              · have hev3 : ev = ext := by
                  rw [hext] at hev2
                  exact (Option.some.injEq _ _).mp hev2.symm
                rw [hev3] at hkev
                have hfind : ((objKeys ext).find?
                    (fun x => (validationList top).contains x)).isSome := by
                  rw [List.find?_isSome]
                  exact ⟨k, hkev, hvalc⟩
                rw [Option.isSome_iff_exists] at hfind
                obtain ⟨k2, hk2⟩ := hfind
                cases hcf : (match top.lookup COMMON_SD_KEY_NAME with
                    | some cv => (objKeys cv).find?
                        (fun x => (validationList top).contains x)
                    | none => none) with
                | some k3 =>
                    refine ⟨"Invalid input : key " ++ k3 ++ " found in " ++
                        COMMON_SD_KEY_NAME ++
                        " but also in other file specific file SDs!", ?_⟩
                    simp only [cross_scope_key_error]
                    rw [if_pos hvl]
                    simp only [hcf]
                | none =>
                    refine ⟨"Invalid input : key " ++ k2 ++ " found in " ++
                        EXTERNAL_SD_KEY_NAME ++
                        ", but also in other file specific file SDs!", ?_⟩
                    simp only [cross_scope_key_error]
                    rw [if_pos hvl]
                    simp only [hcf, hk2]
            obtain ⟨m, hm⟩ := hcross
            exact ⟨m, by simp [parse_and_validate_structural, hext, hhub, hev, hm]⟩
      · have hhub2 : pyInKeys ext MBL_MANIFEST_REPO_NAME = false := by
          cases h2 : pyInKeys ext MBL_MANIFEST_REPO_NAME with
          | true => exact absurd h2 hhub
          | false => rfl
        exact ⟨MBL_MANIFEST_REPO_NAME ++
               " key could not be found in user input file under " ++
               EXTERNAL_SD_KEY_NAME,
          by simp [parse_and_validate_structural, hext, hhub2]⟩

/-- Witness for C9: a document whose common scope and a file-specific
scope share the key `armmbed/y` is rejected by structural validation. -/
theorem C9_cross_scope_duplicate_rejected_witness :
    ∃ msg, parse_and_validate_structural (.obj
      [("_external_", .obj [("armmbed/mbl-manifest",
          .arr [.str "refs/heads/a", .str "refs/heads/b"])]),
       ("_common_", .obj [("armmbed/y", .str "refs/heads/c")]),
       ("f1", .obj [("armmbed/y", .str "refs/heads/d")])]) = .error msg :=
  C9_cross_scope_duplicate_rejected
    [("_external_", .obj [("armmbed/mbl-manifest",
        .arr [.str "refs/heads/a", .str "refs/heads/b"])]),
     ("_common_", .obj [("armmbed/y", .str "refs/heads/c")]),
     ("f1", .obj [("armmbed/y", .str "refs/heads/d")])]
    "armmbed/y"
    (Or.inl ⟨.obj [("armmbed/y", .str "refs/heads/c")], rfl, by decide⟩)
    (by decide)

/-! ## C5: duplicate keys fail at parse time -/

theorem isOk_ok {e a : Type} (x : a) : (Except.ok x : Except e a).isOk = true := rfl

theorem isOk_error {e a : Type} (m : e) :
    (Except.error m : Except e a).isOk = false := rfl

theorem ok_bind {e a b : Type} (x : a) (f : a → Except e b) :
    (Except.ok x >>= f) = f x := rfl

theorem error_bind {e a b : Type} (m : e) (f : a → Except e b) :
    ((Except.error m : Except e a) >>= f) = .error m := rfl

theorem lookup_isSome_of_keys_eq {α : Type} :
    ∀ (l₁ l₂ : List (String × α)) (k : String),
      l₁.map Prod.fst = l₂.map Prod.fst →
      (l₁.lookup k).isSome = (l₂.lookup k).isSome := by
  intro l₁
  induction l₁ with
  | nil =>
      intro l₂ k h
      cases l₂ with
      | nil => rfl
      | cons hd tl => simp at h
  | cons hd tl ih =>
      intro l₂ k h
      cases l₂ with
      | nil => simp at h
      | cons hd2 tl2 =>
          obtain ⟨a, b⟩ := hd
          obtain ⟨a2, b2⟩ := hd2
          simp only [List.map, List.cons.injEq] at h
          obtain ⟨ha, htl⟩ := h
          subst ha
          cases hk : k == a with
          | true => simp [List.lookup, hk]
          | false => simpa [List.lookup, hk] using ih tl2 k htl

theorem hasDuplicateKey_of_keys_eq :
    ∀ (l₁ l₂ : List (String × JsonV)),
      l₁.map Prod.fst = l₂.map Prod.fst →
      hasDuplicateKey l₁ = hasDuplicateKey l₂ := by
  intro l₁
  induction l₁ with
  | nil =>
      intro l₂ h
      cases l₂ with
      | nil => rfl
      | cons hd tl => simp at h
  | cons hd tl ih =>
      intro l₂ h
      cases l₂ with
      | nil => simp at h
      | cons hd2 tl2 =>
          obtain ⟨a, b⟩ := hd
          obtain ⟨a2, b2⟩ := hd2
          simp only [List.map, List.cons.injEq] at h
          obtain ⟨ha, htl⟩ := h
          subst ha
          simp only [hasDuplicateKey]
          rw [lookup_isSome_of_keys_eq tl tl2 a htl, ih tl2 htl]

/-- If a key occurs both in the remaining pairs and in the accumulated
dictionary, `dict_raise_on_duplicates_go` raises. -/
theorem dict_go_err_of_mem {α : Type} :
    ∀ (fs d : List (String × α)) (k : String),
      (fs.lookup k).isSome = true → (d.lookup k).isSome = true →
      (dict_raise_on_duplicates_go fs d).isOk = false := by
  intro fs
  induction fs with
  | nil => intro d k hf _; simp [List.lookup] at hf
  | cons hd rest ih =>
      intro d k hf hd'
      obtain ⟨k1, v1⟩ := hd
      cases hdk : (d.lookup k1).isSome with
      | true =>
          simp only [dict_raise_on_duplicates_go]
          rw [if_pos hdk]
          rfl
      | false =>
          have hkne : (k == k1) = false := by
            cases hkk : k == k1 with
            | false => rfl
            | true =>
                have : k = k1 := by simpa using hkk
                subst this
                rw [hd'] at hdk
                cases hdk
          have hf2 : (rest.lookup k).isSome = true := by
            simpa [List.lookup, hkne] using hf
          have hd2 : ((d ++ [(k1, v1)]).lookup k).isSome = true := by
            rw [lookup_append_left d [(k1, v1)] k hd']
            exact hd'
          simp only [dict_raise_on_duplicates_go, hdk]
          exact ih (d ++ [(k1, v1)]) k hf2 hd2

theorem lookup_append_right_single {α : Type} :
    ∀ (d : List (String × α)) (k : String) (v : α),
      (d.lookup k).isSome = false → ((d ++ [(k, v)]).lookup k) = some v := by
  intro d k v
  induction d with
  | nil => intro _; simp [List.lookup]
  | cons hd tl ih =>
      obtain ⟨a, b⟩ := hd
      cases hk : k == a with
      | true => intro h; simp [List.lookup, hk] at h
      | false =>
          intro h
          simp only [List.lookup, hk] at h
          simp only [List.cons_append, List.lookup, hk]
          exact ih h

/-- A pair list with a duplicate key makes the duplicate-raising hook
fail, whatever has been accumulated so far. -/
theorem dict_go_err_of_dup :
    ∀ (fs d : List (String × JsonV)),
      hasDuplicateKey fs = true →
      (dict_raise_on_duplicates_go fs d).isOk = false := by
  intro fs
  induction fs with
  | nil => intro d h; simp [hasDuplicateKey] at h
  | cons hd rest ih =>
      intro d h
      obtain ⟨k, v⟩ := hd
      cases hdk : (d.lookup k).isSome with
      | true =>
          simp only [dict_raise_on_duplicates_go]
          rw [if_pos hdk]
          rfl
      | false =>
          simp only [dict_raise_on_duplicates_go, hdk]
          simp only [hasDuplicateKey, Bool.or_eq_true] at h
          rcases h with h | h
          · refine dict_go_err_of_mem rest (d ++ [(k, v)]) k h ?_
            rw [lookup_append_right_single d k v hdk]
            rfl
          · exact ih (d ++ [(k, v)]) h

/-- The hook itself fails on a duplicated key. -/
theorem dict_raise_err_of_dup (fs : List (String × JsonV))
    (h : hasDuplicateKey fs = true) :
    (dict_raise_on_duplicates fs).isOk = false :=
  dict_go_err_of_dup fs [] h

/-- Decoding preserves the keys of an object, in order. -/
theorem loadsFields_keys :
    ∀ (fs ys : List (String × JsonV)),
      loadsWithHook.loadsFields fs = .ok ys →
      ys.map Prod.fst = fs.map Prod.fst := by
  intro fs
  induction fs with
  | nil =>
      intro ys h
      simp only [loadsWithHook.loadsFields] at h
      cases h
      rfl
  | cons hd rest ih =>
      intro ys h
      obtain ⟨k, v⟩ := hd
      simp only [loadsWithHook.loadsFields] at h
      cases hv : loadsWithHook v with
      | error e => rw [hv] at h; cases h
      | ok w =>
          rw [hv] at h
          cases hr : loadsWithHook.loadsFields rest with
          | error e => rw [hr] at h; cases h
          | ok ws =>
              rw [hr] at h
              cases h
              simp only [List.map]
              rw [ih ws hr]

mutual

/-- A document containing an object with a duplicate key fails to decode
under the duplicate-raising hook. -/
theorem loads_err_of_dup : ∀ (j : JsonV), jsonHasDuplicateObj j = true →
    (loadsWithHook j).isOk = false
  | .str s, h => by simp [jsonHasDuplicateObj] at h
  | .arr xs, h => by
      simp only [jsonHasDuplicateObj] at h
      have hx := loadsList_err_of_dup xs h
      simp only [loadsWithHook]
      cases hl : loadsWithHook.loadsList xs with
      | error e => rfl
      | ok ys =>
          rw [hl, isOk_ok] at hx
          exact Bool.noConfusion hx
  | .obj fs, h => by
      simp only [jsonHasDuplicateObj, Bool.or_eq_true] at h
      simp only [loadsWithHook]
      cases hf : loadsWithHook.loadsFields fs with
      | error e =>
          simp only [hf, error_bind]
          rfl
      | ok fs2 =>
          rcases h with h | h
          · have hkeys := loadsFields_keys fs fs2 hf
            have hdup2 : hasDuplicateKey fs2 = true := by
              rw [hasDuplicateKey_of_keys_eq fs2 fs hkeys]
              exact h
            have herr := dict_raise_err_of_dup fs2 hdup2
            cases hd : dict_raise_on_duplicates fs2 with
            | error e =>
                simp only [hf, ok_bind, hd, error_bind]
                rfl
            | ok d =>
                rw [hd, isOk_ok] at herr
                exact Bool.noConfusion herr
          · have hx := loadsFields_err_of_dup fs h
            rw [hf, isOk_ok] at hx
            exact Bool.noConfusion hx

theorem loadsList_err_of_dup : ∀ (xs : List JsonV),
    jsonHasDuplicateObj.dupList xs = true →
    (loadsWithHook.loadsList xs).isOk = false
  | [], h => by simp [jsonHasDuplicateObj.dupList] at h
  | x :: xs, h => by
      simp only [jsonHasDuplicateObj.dupList, Bool.or_eq_true] at h
      simp only [loadsWithHook.loadsList]
      cases hx : loadsWithHook x with
      | error e =>
          simp only [hx, error_bind]
          rfl
      | ok y =>
          rcases h with h | h
          · have hthis := loads_err_of_dup x h
            rw [hx, isOk_ok] at hthis
            exact Bool.noConfusion hthis
          · have hrest := loadsList_err_of_dup xs h
            cases hy : loadsWithHook.loadsList xs with
            | error e =>
                simp only [hx, ok_bind, hy, error_bind]
                rfl
            | ok ys =>
                rw [hy, isOk_ok] at hrest
                exact Bool.noConfusion hrest

theorem loadsFields_err_of_dup : ∀ (fs : List (String × JsonV)),
    jsonHasDuplicateObj.dupFields fs = true →
    (loadsWithHook.loadsFields fs).isOk = false
  | [], h => by simp [jsonHasDuplicateObj.dupFields] at h
  | (k, v) :: rest, h => by
      simp only [jsonHasDuplicateObj.dupFields, Bool.or_eq_true] at h
      simp only [loadsWithHook.loadsFields]
      cases hv : loadsWithHook v with
      | error e =>
          simp only [hv, error_bind]
          rfl
      | ok w =>
          rcases h with h | h
          · have hthis := loads_err_of_dup v h
            rw [hv, isOk_ok] at hthis
            exact Bool.noConfusion hthis
          · have hrest := loadsFields_err_of_dup rest h
            cases hr : loadsWithHook.loadsFields rest with
            | error e =>
                simp only [hv, ok_bind, hr, error_bind]
                rfl
            | ok ws =>
                rw [hr, isOk_ok] at hrest
                exact Bool.noConfusion hrest

end

/-- C5: an input document containing a duplicate key — at the top level
or inside any nested object — fails in `json.loads` with the
duplicate-raising hook, and `parse_and_validate_input_file` returns that
same parse error: **whatever** structural validation would have run
never does (the result is the parse error for every possible validator),
and no network phase (which consumes the parse result) is reached. -/
theorem C5_duplicate_key_fails_before_validation (doc : JsonV)
    (hdup : jsonHasDuplicateObj doc = true) :
    ∃ msg, loadsWithHook doc = .error msg ∧
      parse_and_validate_input_file doc = .error msg ∧
      ∀ (validate : JsonV → Except String JsonV),
        (loadsWithHook doc).bind validate = .error msg := by
  have h := loads_err_of_dup doc hdup
  cases hl : loadsWithHook doc with
  | ok v =>
      rw [hl, isOk_ok] at h
      exact Bool.noConfusion h
  | error msg =>
      refine ⟨msg, rfl, ?_, ?_⟩
      · show (loadsWithHook doc).bind parse_and_validate_structural = .error msg
        rw [hl]
        rfl
      · intro validate
        rfl

/-- Witness for C5: a document whose top-level object repeats the key
`a` fails to parse, and its parse-then-validate result is that same
duplicate-key error for every validator. -/
theorem C5_duplicate_key_fails_before_validation_witness :
    ∃ msg, loadsWithHook (.obj [("a", .str "x"), ("a", .str "y")]) = .error msg ∧
      parse_and_validate_input_file (.obj [("a", .str "x"), ("a", .str "y")]) =
        .error msg ∧
      ∀ (validate : JsonV → Except String JsonV),
        (loadsWithHook (.obj [("a", .str "x"), ("a", .str "y")])).bind validate =
          .error msg :=
  C5_duplicate_key_fails_before_validation
    (.obj [("a", .str "x"), ("a", .str "y")]) (by decide)

/-! ## C3: the remote-state checks and where a mismatch aborts the run -/

/-- The check list the code builds coincides with the specification's
description of it. -/
theorem build_check_remote_list_eq_spec (doc : ValidatedDoc)
    (manifests : List CRepoManifestFile) :
    build_check_remote_list doc manifests = spec_check_list doc manifests := by
  unfold build_check_remote_list spec_check_list
  congr 1
  induction manifests with
  | nil => rfl
  | cons fo rest ih =>
      simp only [List.flatMap_cons]
      rw [ih]
      congr 1
      apply List.filterMap_congr
      intro kv _
      cases h : get_new_ref_from_new_revision_dict doc fo.filename kv.1 with
      | none => rfl
      | some nr => cases hb : kv.2.is_arm_mrr <;> simp [hb]

/-- A worker run on the hub or linked-repositories repository clones,
creates the local ref and logs it, and never pushes. -/
theorem worker_excluded_no_push (simulate : Bool)
    (outcome : String → String → GitPushOutcome)
    (full_name cur tgt : String) (st : RunState)
    (hex : full_name = MBL_MANIFEST_REPO_NAME ∨
           full_name = MBL_LINKED_REPOSITORIES_REPO_NAME) :
    ∃ se, create_and_update_new_revisions_worker simulate outcome
        full_name cur tgt st =
      ({ st with
          events := st.events ++ [RunEvent.cloneRepo full_name cur,
                                  RunEvent.createLocalRef full_name tgt]
          summary := st.summary ++ [se] }, none) := by
  unfold create_and_update_new_revisions_worker
  cases hb : strStartsWith tgt REF_BRANCH_PFX with
  | true =>
      refine ⟨SummaryEntry.branch (get_base_rev_name tgt) full_name, ?_⟩
      rcases hex with rfl | rfl <;> simp [hb]
  | false =>
      refine ⟨SummaryEntry.tag (get_base_rev_name tgt) full_name, ?_⟩
      rcases hex with rfl | rfl <;> simp [hb]

/-- The manifest phase on a document that carries the hub key: clone the
hub at its starting revision, create its new local ref, push nothing. -/
theorem process_manifest_files_run_events (simulate : Bool)
    (outcome : String → String → GitPushOutcome) (doc : ValidatedDoc)
    (a b : String)
    (hhub : doc.external.lookup MBL_MANIFEST_REPO_NAME = some (a, b)) :
    ∃ se, process_manifest_files_run simulate outcome doc RunState.init =
      (⟨[RunEvent.cloneRepo MBL_MANIFEST_REPO_NAME a,
         RunEvent.createLocalRef MBL_MANIFEST_REPO_NAME b], [se], []⟩, none) := by
  obtain ⟨se, hw⟩ := worker_excluded_no_push simulate outcome
    MBL_MANIFEST_REPO_NAME a b RunState.init (Or.inl rfl)
  refine ⟨se, ?_⟩
  unfold process_manifest_files_run
  simp only [hhub]
  rw [hw]
  rfl

/-- C3 (amended): the remote-state check list contains exactly one
absence check per external-scope entry and one check per manifest
project with a pending revision change — absence when Arm-managed,
presence when not (first conjunct, against the specification-worded
list); and whenever those checks find a mismatch the run aborts with an
error having pushed nothing and having cloned no changed repository
**other than the hub manifest repository**, which is cloned before
remote-state validation in order to parse the manifests. -/
theorem C3_remote_state_checks_abort_before_push
    (simulate : Bool) (outcome : String → String → GitPushOutcome)
    (remote : String → List String) (doc : ValidatedDoc)
    (manifests : List CRepoManifestFile) (a b err : String)
    (hhub : doc.external.lookup MBL_MANIFEST_REPO_NAME = some (a, b))
    (hval : validate_remote_repositories_state remote
        (build_check_remote_list doc manifests) = some err) :
    build_check_remote_list doc manifests = spec_check_list doc manifests ∧
    (runRelease simulate outcome remote doc manifests).2.isSome = true ∧
    (runRelease simulate outcome remote doc manifests).1.already_pushed_repository_list = [] ∧
    (∀ e ∈ (runRelease simulate outcome remote doc manifests).1.events,
      (∀ n r, e ≠ RunEvent.netPush n r) ∧
      (∀ n r, e = RunEvent.cloneRepo n r → n = MBL_MANIFEST_REPO_NAME)) := by
  obtain ⟨se, hp1⟩ := process_manifest_files_run_events simulate outcome doc a b hhub
  have hcd : ∃ e, validate_cross_dependencies remote doc manifests = some e := by
    unfold validate_cross_dependencies
    cases hcc : validate_cross_dependencies_checks doc manifests with
    | some e => exact ⟨e, rfl⟩
    | none => exact ⟨err, hval⟩
  obtain ⟨e0, he0⟩ := hcd
  have hrun : runRelease simulate outcome remote doc manifests =
      (⟨[RunEvent.cloneRepo MBL_MANIFEST_REPO_NAME a,
         RunEvent.createLocalRef MBL_MANIFEST_REPO_NAME b], [se], []⟩, some e0) := by
    unfold runRelease
    rw [hp1, he0]
  refine ⟨build_check_remote_list_eq_spec doc manifests, ?_, ?_, ?_⟩
  · rw [hrun]
    rfl
  · rw [hrun]
  · rw [hrun]
    intro ev hev
    rcases List.mem_cons.mp hev with rfl | hev2
    · exact ⟨fun n r h => RunEvent.noConfusion h,
             fun n r h => by
               cases h
               rfl⟩
    · rcases List.mem_cons.mp hev2 with rfl | hev3
      · exact ⟨fun n r h => RunEvent.noConfusion h,
               fun n r h => RunEvent.noConfusion h⟩
      · cases hev3

/-- Witness for C3: a run whose external target `refs/heads/release-7`
already exists on the remote aborts, with no push and with the hub the
only cloned repository. -/
theorem C3_remote_state_checks_abort_before_push_witness :
    build_check_remote_list c3_doc [] = spec_check_list c3_doc [] ∧
    (runRelease false (fun _ _ => GitPushOutcome.success)
        (fun _ => ["refs/heads/release-7"]) c3_doc []).2.isSome = true ∧
    (runRelease false (fun _ _ => GitPushOutcome.success)
        (fun _ => ["refs/heads/release-7"])
        c3_doc []).1.already_pushed_repository_list = [] ∧
    (∀ e ∈ (runRelease false (fun _ _ => GitPushOutcome.success)
        (fun _ => ["refs/heads/release-7"]) c3_doc []).1.events,
      (∀ n r, e ≠ RunEvent.netPush n r) ∧
      (∀ n r, e = RunEvent.cloneRepo n r → n = MBL_MANIFEST_REPO_NAME)) :=
  C3_remote_state_checks_abort_before_push false
    (fun _ _ => GitPushOutcome.success) (fun _ => ["refs/heads/release-7"])
    c3_doc [] "refs/heads/dev" "refs/heads/release-7"
    ("revision refs/heads/release-7 exist on remote url " ++
     "ssh://git@github.com:/armmbed/mbl-manifest.git")
    (by decide) (by decide)

/-- Counterexample for C3 as stated: the claim requires a remote-state
mismatch to abort the run "before any clone ... of the changed
repositories has occurred", but in this failing run the hub manifest
repository — itself a changed repository, receiving the new branch — has
already been cloned when the validation error is raised. -/
theorem C3_hub_cloned_before_validation_counterexample :
    (runRelease false (fun _ _ => GitPushOutcome.success)
        (fun _ => ["refs/heads/release-7"]) c3_doc []).2.isSome = true ∧
    RunEvent.cloneRepo MBL_MANIFEST_REPO_NAME "refs/heads/dev" ∈
      (runRelease false (fun _ _ => GitPushOutcome.success)
        (fun _ => ["refs/heads/release-7"]) c3_doc []).1.events := by
  decide

/-! ## C7: simulation mode -/

theorem repo_push_true (outcome : String → String → GitPushOutcome)
    (n v : String) (st : RunState) :
    repo_push true outcome n v st = (st, none) := rfl

theorem repo_push_false_success (outcome : String → String → GitPushOutcome)
    (n v : String) (st : RunState) (h : outcome n v = .success) :
    repo_push false outcome n v st =
      ({ st with
          events := st.events ++ [RunEvent.netPush n v]
          already_pushed_repository_list :=
            st.already_pushed_repository_list ++ [(n, v)] }, none) := by
  simp [repo_push, h]

/-- One worker, simulated versus real, from related states: both
succeed, performing the same clone and local ref creation and logging
the same summary entries; only the real run pushes and records. -/
theorem worker_simreal (outcome : String → String → GitPushOutcome)
    (hok : ∀ n v, outcome n v = GitPushOutcome.success)
    (full_name cur tgt : String) (s r : RunState) (h : SimReal s r) :
    ∃ s2 r2,
      create_and_update_new_revisions_worker true outcome full_name cur tgt s =
        (s2, none) ∧
      create_and_update_new_revisions_worker false outcome full_name cur tgt r =
        (r2, none) ∧
      SimReal s2 r2 := by
  obtain ⟨he, hs, ha⟩ := h
  by_cases hgate : (full_name ≠ MBL_MANIFEST_REPO_NAME ∧
      full_name ≠ MBL_LINKED_REPOSITORIES_REPO_NAME)
  · cases hb : strStartsWith tgt REF_BRANCH_PFX with
    | true =>
        refine ⟨{ s with
            events := s.events ++ [RunEvent.cloneRepo full_name cur,
              RunEvent.createLocalRef full_name tgt]
            summary := s.summary ++
              [SummaryEntry.branch (get_base_rev_name tgt) full_name,
               SummaryEntry.push full_name tgt] },
          { r with
            events := r.events ++ [RunEvent.cloneRepo full_name cur,
              RunEvent.createLocalRef full_name tgt,
              RunEvent.netPush full_name tgt]
            summary := r.summary ++
              [SummaryEntry.branch (get_base_rev_name tgt) full_name,
               SummaryEntry.push full_name tgt]
            already_pushed_repository_list :=
              r.already_pushed_repository_list ++ [(full_name, tgt)] },
          ?_, ?_, ?_⟩
        · simp only [create_and_update_new_revisions_worker, hb, if_true]
          rw [if_pos hgate]
          simp [repo_push, List.append_assoc]
        · simp only [create_and_update_new_revisions_worker, hb, if_true]
          rw [if_pos hgate]
          simp [repo_push, hok, List.append_assoc]
        · refine ⟨?_, ?_, ?_⟩ <;>
            simp [he, hs, ha, RunEvent.isNetPush, List.filter_append]
    | false =>
        refine ⟨{ s with
            events := s.events ++ [RunEvent.cloneRepo full_name cur,
              RunEvent.createLocalRef full_name tgt]
            summary := s.summary ++
              [SummaryEntry.tag (get_base_rev_name tgt) full_name,
               SummaryEntry.push full_name tgt] },
          { r with
            events := r.events ++ [RunEvent.cloneRepo full_name cur,
              RunEvent.createLocalRef full_name tgt,
              RunEvent.netPush full_name tgt]
            summary := r.summary ++
              [SummaryEntry.tag (get_base_rev_name tgt) full_name,
               SummaryEntry.push full_name tgt]
            already_pushed_repository_list :=
              r.already_pushed_repository_list ++ [(full_name, tgt)] },
          ?_, ?_, ?_⟩
        · simp only [create_and_update_new_revisions_worker, hb]
          rw [if_pos hgate]
          simp [repo_push, List.append_assoc]
        · simp only [create_and_update_new_revisions_worker, hb]
          rw [if_pos hgate]
          simp [repo_push, hok, List.append_assoc]
        · refine ⟨?_, ?_, ?_⟩ <;>
            simp [he, hs, ha, RunEvent.isNetPush, List.filter_append]
  · cases hb : strStartsWith tgt REF_BRANCH_PFX with
    | true =>
        refine ⟨{ s with
            events := s.events ++ [RunEvent.cloneRepo full_name cur,
              RunEvent.createLocalRef full_name tgt]
            summary := s.summary ++
              [SummaryEntry.branch (get_base_rev_name tgt) full_name] },
          { r with
            events := r.events ++ [RunEvent.cloneRepo full_name cur,
              RunEvent.createLocalRef full_name tgt]
            summary := r.summary ++
              [SummaryEntry.branch (get_base_rev_name tgt) full_name] },
          ?_, ?_, ?_⟩
        · simp only [create_and_update_new_revisions_worker, hb, if_true]
          rw [if_neg hgate]
          simp [List.append_assoc]
        · simp only [create_and_update_new_revisions_worker, hb, if_true]
          rw [if_neg hgate]
          simp [List.append_assoc]
        · refine ⟨?_, ?_, ?_⟩ <;>
            simp [he, hs, ha, RunEvent.isNetPush, List.filter_append]
    | false =>
        refine ⟨{ s with
            events := s.events ++ [RunEvent.cloneRepo full_name cur,
              RunEvent.createLocalRef full_name tgt]
            summary := s.summary ++
              [SummaryEntry.tag (get_base_rev_name tgt) full_name] },
          { r with
            events := r.events ++ [RunEvent.cloneRepo full_name cur,
              RunEvent.createLocalRef full_name tgt]
            summary := r.summary ++
              [SummaryEntry.tag (get_base_rev_name tgt) full_name] },
          ?_, ?_, ?_⟩
        · simp only [create_and_update_new_revisions_worker, hb]
          rw [if_neg hgate]
          simp [List.append_assoc]
        · simp only [create_and_update_new_revisions_worker, hb]
          rw [if_neg hgate]
          simp [List.append_assoc]
        · refine ⟨?_, ?_, ?_⟩ <;>
            simp [he, hs, ha, RunEvent.isNetPush, List.filter_append]

/-- All units of work, simulated versus real. -/
theorem run_workers_simreal (outcome : String → String → GitPushOutcome)
    (hok : ∀ n v, outcome n v = GitPushOutcome.success) :
    ∀ (units : List (String × String × String)) (s r : RunState),
      SimReal s r →
      ∃ s2 r2, run_workers true outcome units s = (s2, none) ∧
        run_workers false outcome units r = (r2, none) ∧ SimReal s2 r2 := by
  intro units
  induction units with
  | nil => intro s r h; exact ⟨s, r, rfl, rfl, h⟩
  | cons u rest ih =>
      intro s r h
      obtain ⟨n, c, t⟩ := u
      obtain ⟨s1, r1, hs1, hr1, h1⟩ := worker_simreal outcome hok n c t s r h
      obtain ⟨s2, r2, hs2, hr2, h2⟩ := ih s1 r1 h1
      refine ⟨s2, r2, ?_, ?_, h2⟩
      · simp only [run_workers, hs1]
        exact hs2
      · simp only [run_workers, hr1]
        exact hr2

/-- The linked-repositories configuration pushes, simulated versus
real. -/
theorem linked_conf_simreal (outcome : String → String → GitPushOutcome)
    (hok : ∀ n v, outcome n v = GitPushOutcome.success) :
    ∀ (refs : List String) (s r : RunState), SimReal s r →
      ∃ s2 r2,
        update_mbl_linked_repositories_conf_run true outcome refs s = (s2, none) ∧
        update_mbl_linked_repositories_conf_run false outcome refs r = (r2, none) ∧
        SimReal s2 r2 := by
  intro refs
  induction refs with
  | nil => intro s r h; exact ⟨s, r, rfl, rfl, h⟩
  | cons ref rest ih =>
      intro s r h
      obtain ⟨he, hs, ha⟩ := h
      have hrel : SimReal
          { s with summary := s.summary ++
              [SummaryEntry.push MBL_LINKED_REPOSITORIES_REPO_NAME ref] }
          { r with
            events := r.events ++
              [RunEvent.netPush MBL_LINKED_REPOSITORIES_REPO_NAME ref]
            summary := r.summary ++
              [SummaryEntry.push MBL_LINKED_REPOSITORIES_REPO_NAME ref]
            already_pushed_repository_list :=
              r.already_pushed_repository_list ++
                [(MBL_LINKED_REPOSITORIES_REPO_NAME, ref)] } := by
        refine ⟨?_, ?_, ?_⟩ <;>
          simp [he, hs, ha, RunEvent.isNetPush, List.filter_append]
      obtain ⟨s2, r2, hs2, hr2, h2⟩ := ih _ _ hrel
      refine ⟨s2, r2, ?_, ?_, h2⟩
      · simp only [update_mbl_linked_repositories_conf_run, repo_push_true]
        exact hs2
      · simp only [update_mbl_linked_repositories_conf_run,
          repo_push_false_success outcome MBL_LINKED_REPOSITORIES_REPO_NAME ref r
            (hok MBL_LINKED_REPOSITORIES_REPO_NAME ref)]
        exact hr2

/-- The final hub commit+push, simulated versus real. -/
theorem mbl_push_simreal (outcome : String → String → GitPushOutcome)
    (hok : ∀ n v, outcome n v = GitPushOutcome.success) (doc : ValidatedDoc)
    (s r : RunState) (h : SimReal s r) :
    (mbl_manifest_repo_push_run true outcome doc s).2 =
      (mbl_manifest_repo_push_run false outcome doc r).2 ∧
    SimReal (mbl_manifest_repo_push_run true outcome doc s).1
      (mbl_manifest_repo_push_run false outcome doc r).1 := by
  obtain ⟨he, hs, ha⟩ := h
  cases hl : doc.external.lookup MBL_MANIFEST_REPO_NAME with
  | none =>
      constructor
      · simp [mbl_manifest_repo_push_run, hl]
      · exact ⟨by simp [mbl_manifest_repo_push_run, hl, he],
          by simp [mbl_manifest_repo_push_run, hl, hs],
          by simp [mbl_manifest_repo_push_run, hl, ha]⟩
  | some p =>
      obtain ⟨cur, tgt⟩ := p
      constructor
      · simp [mbl_manifest_repo_push_run, hl, repo_push, hok]
      · refine ⟨?_, ?_, ?_⟩ <;>
          simp [mbl_manifest_repo_push_run, hl, repo_push, hok, he, hs, ha,
            RunEvent.isNetPush, List.filter_append, List.append_assoc]

/-- C7: with every push succeeding, a simulated run and a real run abort
or succeed identically, the simulated run performs exactly the non-push
events of the real run (every validation outcome, clone, local
branch/tag creation and commit is the same, and no network push
happens), it records no push record, and its printed summary log —
including its push entries — is the same as the real run's. -/
theorem C7_simulation_skips_only_pushes
    (outcome : String → String → GitPushOutcome)
    (remote : String → List String) (doc : ValidatedDoc)
    (manifests : List CRepoManifestFile)
    (hok : ∀ n v, outcome n v = GitPushOutcome.success) :
    (runRelease true outcome remote doc manifests).2 =
      (runRelease false outcome remote doc manifests).2 ∧
    (runRelease true outcome remote doc manifests).1.events =
      (runRelease false outcome remote doc manifests).1.events.filter
        (fun e => !e.isNetPush) ∧
    (runRelease true outcome remote doc manifests).1.summary =
      (runRelease false outcome remote doc manifests).1.summary ∧
    (runRelease true outcome remote doc
        manifests).1.already_pushed_repository_list = [] := by
  cases hl : doc.external.lookup MBL_MANIFEST_REPO_NAME with
  | none =>
      refine ⟨?_, ?_, ?_, ?_⟩ <;>
        simp [runRelease, process_manifest_files_run, hl, RunState.init]
  | some p =>
      obtain ⟨cur, tgt⟩ := p
      obtain ⟨s1, r1, hs1, hr1, h1⟩ := worker_simreal outcome hok
        MBL_MANIFEST_REPO_NAME cur tgt RunState.init RunState.init ⟨rfl, rfl, rfl⟩
      have hp_s : process_manifest_files_run true outcome doc RunState.init =
          (s1, none) := by
        unfold process_manifest_files_run
        simp only [hl]
        exact hs1
      have hp_r : process_manifest_files_run false outcome doc RunState.init =
          (r1, none) := by
        unfold process_manifest_files_run
        simp only [hl]
        exact hr1
      cases hcd : validate_cross_dependencies remote doc manifests with
      | some e =>
          have hrunT : runRelease true outcome remote doc manifests =
              (s1, some e) := by
            unfold runRelease
            simp only [hp_s, hcd]
          have hrunF : runRelease false outcome remote doc manifests =
              (r1, some e) := by
            unfold runRelease
            simp only [hp_r, hcd]
          rw [hrunT, hrunF]
          exact ⟨rfl, h1.events_eq, h1.summary_eq, h1.records_nil⟩
      | none =>
          obtain ⟨s2, r2, hs2, hr2, h2⟩ := run_workers_simreal outcome hok
            (release_units doc manifests) s1 r1 h1
          obtain ⟨s3, r3, hs3, hr3, h3⟩ := linked_conf_simreal outcome hok
            (linked_conf_units doc manifests) s2 r2 h2
          have h4 := mbl_push_simreal outcome hok doc s3 r3 h3
          have hrunT : runRelease true outcome remote doc manifests =
              mbl_manifest_repo_push_run true outcome doc s3 := by
            unfold runRelease
            simp only [hp_s, hcd, hs2, hs3]
          have hrunF : runRelease false outcome remote doc manifests =
              mbl_manifest_repo_push_run false outcome doc r3 := by
            unfold runRelease
            simp only [hp_r, hcd, hr2, hr3]
          rw [hrunT, hrunF]
          exact ⟨h4.1, h4.2.events_eq, h4.2.summary_eq, h4.2.records_nil⟩

/-- Witness for C7: a concrete run over one external repository — the
simulated run clones and creates the branch, pushes nothing, records
nothing, and prints the same summary (with its push entry) as the real
run. -/
theorem C7_simulation_skips_only_pushes_witness :
    (runRelease true (fun _ _ => GitPushOutcome.success) (fun _ => [])
        ⟨[("armmbed/mbl-manifest", ("refs/heads/dev", "refs/heads/rel")),
          ("armmbed/meta-x", ("refs/heads/dev", "refs/heads/rel"))], []⟩ []).2 =
      (runRelease false (fun _ _ => GitPushOutcome.success) (fun _ => [])
        ⟨[("armmbed/mbl-manifest", ("refs/heads/dev", "refs/heads/rel")),
          ("armmbed/meta-x", ("refs/heads/dev", "refs/heads/rel"))], []⟩ []).2 ∧
    (runRelease true (fun _ _ => GitPushOutcome.success) (fun _ => [])
        ⟨[("armmbed/mbl-manifest", ("refs/heads/dev", "refs/heads/rel")),
          ("armmbed/meta-x", ("refs/heads/dev", "refs/heads/rel"))], []⟩ []).1.events =
      (runRelease false (fun _ _ => GitPushOutcome.success) (fun _ => [])
        ⟨[("armmbed/mbl-manifest", ("refs/heads/dev", "refs/heads/rel")),
          ("armmbed/meta-x", ("refs/heads/dev", "refs/heads/rel"))], []⟩
          []).1.events.filter (fun e => !e.isNetPush) ∧
    (runRelease true (fun _ _ => GitPushOutcome.success) (fun _ => [])
        ⟨[("armmbed/mbl-manifest", ("refs/heads/dev", "refs/heads/rel")),
          ("armmbed/meta-x", ("refs/heads/dev", "refs/heads/rel"))], []⟩ []).1.summary =
      (runRelease false (fun _ _ => GitPushOutcome.success) (fun _ => [])
        ⟨[("armmbed/mbl-manifest", ("refs/heads/dev", "refs/heads/rel")),
          ("armmbed/meta-x", ("refs/heads/dev", "refs/heads/rel"))], []⟩ []).1.summary ∧
    (runRelease true (fun _ _ => GitPushOutcome.success) (fun _ => [])
        ⟨[("armmbed/mbl-manifest", ("refs/heads/dev", "refs/heads/rel")),
          ("armmbed/meta-x", ("refs/heads/dev", "refs/heads/rel"))], []⟩
          []).1.already_pushed_repository_list = [] :=
  C7_simulation_skips_only_pushes (fun _ _ => GitPushOutcome.success)
    (fun _ => [])
    ⟨[("armmbed/mbl-manifest", ("refs/heads/dev", "refs/heads/rel")),
      ("armmbed/meta-x", ("refs/heads/dev", "refs/heads/rel"))], []⟩ []
    (fun _ _ => rfl)

end MblReleaseManager
